import Mathlib

/-!
Shallow embedding of the `bingimage` program (src/main.rs).

Strings are modelled as `List Char`.  Network and filesystem effects are
modelled by explicit oracles (the outcome each fallible call would have)
and by lists of filesystem events the code would perform.
-/

namespace Bingimage

/-- Convert a Lean string literal to the `List Char` model. -/
def str (s : String) : List Char := s.toList

/-! ## String helpers mirroring the Rust standard library -/

/-- `str::split(c)` collected into a vector: split a character list on a
separator character.  Splitting the empty list yields `[[]]`, as in Rust. -/
def splitOnChar (c : Char) : List Char → List (List Char)
  | [] => [[]]
  | a :: rest =>
    if a = c then [] :: splitOnChar c rest
    else
      match splitOnChar c rest with
      | [] => [[a]]
      | h :: t => (a :: h) :: t

/-- `str::trim_matches(c)`: remove all leading and all trailing occurrences
of the character `c`. -/
def trimMatches (c : Char) (l : List Char) : List Char :=
  ((l.dropWhile (fun a => a == c)).reverse.dropWhile (fun a => a == c)).reverse

/-- `str::replace(pat, repl)`: replace every (leftmost, non-overlapping)
occurrence of `pat` by `repl`. -/
def replaceAll (pat repl : List Char) : List Char → List Char
  | [] => []
  | a :: rest =>
    if h : pat ≠ [] ∧ pat.isPrefixOf (a :: rest) then
      repl ++ replaceAll pat repl ((a :: rest).drop pat.length)
    else
      a :: replaceAll pat repl rest
termination_by l => l.length
decreasing_by
  · simp only [List.length_drop, List.length_cons]
    have hlen : 1 ≤ pat.length := by
      cases pat with
      | nil => exact absurd rfl h.1
      | cons x xs => simp
    omega
  · simp

/-- Decimal digit character for `d < 10`. -/
def digitChar (d : Nat) : Char :=
  match d with
  | 0 => '0' | 1 => '1' | 2 => '2' | 3 => '3' | 4 => '4'
  | 5 => '5' | 6 => '6' | 7 => '7' | 8 => '8' | _ => '9'

/-- Decimal digits of `n`, least significant first (empty for `0`). -/
def natRevDigits : Nat → List Char
  | 0 => []
  | n + 1 => digitChar ((n + 1) % 10) :: natRevDigits ((n + 1) / 10)
decreasing_by
  exact Nat.div_lt_self (Nat.succ_pos n) (by omega)

/-- Decimal rendering of a natural number, as Rust's `Display` for `u16`. -/
def natStr (n : Nat) : List Char :=
  if n = 0 then ['0'] else (natRevDigits n).reverse

/-- One step of decimal accumulation, failing on a non-digit character. -/
def parseDigitStep (acc : Option Nat) (c : Char) : Option Nat :=
  match acc with
  | none => none
  | some a => if c.isDigit then some (a * 10 + (c.toNat - 48)) else none

/-- `u16::from_str`: an optional leading `+`, then one or more ASCII decimal
digits, with the value required to fit in 16 bits. -/
def parseU16 (l : List Char) : Option Nat :=
  let body := if l.head? = some '+' then l.tail else l
  if body = [] then none
  else
    match body.foldl parseDigitStep (some 0) with
    | none => none
    | some v => if v < 65536 then some v else none

/-! ## Resolution (src/main.rs, `struct Resolution` and its `to_string`) -/

/-- `Resolution`: a width/height pair of `u16` values, modelled as naturals
below `2^16`. -/
structure Resolution where
  x : Nat
  y : Nat
deriving DecidableEq, Repr

/-- `Resolution::to_string`: the canonical text form `WIDTHxHEIGHT`. -/
def Resolution.toText (r : Resolution) : List Char :=
  natStr r.x ++ ['x'] ++ natStr r.y

/-- The resolution-argument parser from `main` (src/main.rs lines 46-57):
split on `'x'`, require exactly two parts, parse both as `u16`. -/
def parseResolution (s : List Char) : Option Resolution :=
  match splitOnChar 'x' s with
  | [a, b] =>
    match parseU16 a, parseU16 b with
    | some w, some h => some ⟨w, h⟩
    | _, _ => none
  | _ => none

/-! ## JSON values (serde_json `Value`) -/

/-- `serde_json::Value`, with numbers kept as their rendered text. -/
inductive Json where
  | null : Json
  | bool : Bool → Json
  | num : List Char → Json
  | string : List Char → Json
  | arr : List Json → Json
  | obj : List (List Char × Json) → Json
deriving Repr

/-- Escape one character as serde_json's compact string rendering does. -/
def escapeChar (c : Char) : List Char :=
  if c = '"' then ['\\', '"']
  else if c = '\\' then ['\\', '\\']
  else if c = '\n' then ['\\', 'n']
  else if c = '\r' then ['\\', 'r']
  else if c = '\t' then ['\\', 't']
  else if c = Char.ofNat 8 then ['\\', 'b']
  else if c = Char.ofNat 12 then ['\\', 'f']
  else if c.toNat < 32 then
    ['\\', 'u', '0', '0',
     digitChar (c.toNat / 16),
     if c.toNat % 16 < 10 then digitChar (c.toNat % 16)
     else Char.ofNat (97 + (c.toNat % 16 - 10))]
  else [c]

mutual

/-- `Value::to_string()`: the compact JSON text of a value. -/
def jsonToText : Json → List Char
  | .null => str "null"
  | .bool true => str "true"
  | .bool false => str "false"
  | .num s => s
  | .string s => '"' :: (s.flatMap escapeChar) ++ ['"']
  | .arr xs => '[' :: jsonListText xs ++ [']']
  | .obj xs => Char.ofNat 123 :: jsonObjText xs ++ [Char.ofNat 125]

/-- Comma-separated rendering of array elements. -/
def jsonListText : List Json → List Char
  | [] => []
  | [x] => jsonToText x
  | x :: y :: rest => jsonToText x ++ ',' :: jsonListText (y :: rest)

/-- Comma-separated rendering of object entries. -/
def jsonObjText : List (List Char × Json) → List Char
  | [] => []
  | [(k, v)] => '"' :: (k.flatMap escapeChar) ++ '"' :: ':' :: jsonToText v
  | (k, v) :: e :: rest =>
    '"' :: (k.flatMap escapeChar) ++ '"' :: ':' :: jsonToText v
      ++ ',' :: jsonObjText (e :: rest)

end

/-- Indexing a `Value` by an object key (`value["key"]`): the entry's value
if `self` is an object containing the key, `Value::Null` otherwise. -/
def Json.getKey (j : Json) (k : List Char) : Json :=
  match j with
  | .obj entries =>
    match entries.find? (fun e => e.1 = k) with
    | some e => e.2
    | none => .null
  | _ => .null

/-- Indexing a `Value` by an array position (`value[i]`): the element if
`self` is an array long enough, `Value::Null` otherwise. -/
def Json.getIdx (j : Json) (i : Nat) : Json :=
  match j with
  | .arr xs => (xs.get? i).getD .null
  | _ => .null

/-! ## Metadata fetch (src/main.rs lines 71-80) -/

/-- The three shared strings extracted from the metadata response. -/
structure ImageMetadata where
  url : List Char
  title : List Char
  copyright : List Char
deriving DecidableEq, Repr

/-- Extract one field of `json["images"][0]`, as `main` does: render the
indexed value as text and strip all delimiting quote characters. -/
def extractField (json : Json) (field : List Char) : List Char :=
  trimMatches '"' (jsonToText (((json.getKey (str "images")).getIdx 0).getKey field))

/-- The metadata fetch of `main`: the argument is `none` when the request
cannot complete or the body is not decodable as JSON (either `?` propagates),
and `some json` when a JSON document was decoded.  Field extraction itself
never fails. -/
def fetchMeta : Option Json → Except Unit ImageMetadata
  | none => .error ()
  | some json =>
    .ok { url := extractField json (str "url")
          title := extractField json (str "title")
          copyright := extractField json (str "copyright") }

/-! ## Image properties and tasks (src/main.rs lines 109-211, 228-233) -/

/-- `struct ImageProperties`: the payload handed to each spawned task. -/
structure ImageProperties where
  resolution : Resolution
  url : List Char
  title : List Char
  copyright : List Char
deriving DecidableEq, Repr

/-- A filesystem operation a task attempts, in program order. -/
inductive FsEvent where
  | create (p : List Char) : FsEvent
  | write (p : List Char) (bytes : List Nat) : FsEvent
  | sync (p : List Char) : FsEvent
deriving DecidableEq, Repr

/-- The outcome the environment gives to each fallible call inside one
`download` task: the transport result of the image request, the body read,
`File::create`, `file.write` (the reported written length) and
`file.sync_all`. -/
structure TaskEnv where
  fetchOk : Bool
  bodyResult : Option (List Nat)
  createOk : Bool
  writeResult : Option Nat
  syncOk : Bool
deriving DecidableEq, Repr

/-- `PathBuf::join` with a relative file name. -/
def joinPath (dir name : List Char) : List Char := dir ++ '/' :: name

/-- The fixed origin prepended to the derived URL (src/main.rs line 120). -/
def urlOrigin : List Char := str "https://bing.com"

/-- The baseline resolution marker substituted in the URL template
(src/main.rs line 118). -/
def marker : List Char := str "1920x1080"

/-- The URL `download` fetches: the template with every occurrence of the
baseline marker replaced by the resolution's canonical text, prefixed by the
fixed origin (src/main.rs lines 117-120). -/
def deriveUrl (template : List Char) (r : Resolution) : List Char :=
  urlOrigin ++ replaceAll marker r.toText template

/-- The output file name of a `download` task (src/main.rs line 114). -/
def downloadFileName (r : Resolution) : List Char := r.toText ++ str ".jpg"

/-- The filesystem operations one `download` task attempts, following the
source control flow (src/main.rs lines 112-170).  The task returns unit on
every path; errors are only printed. -/
def downloadEvents (env : TaskEnv) (props : ImageProperties) (dir : List Char) :
    List FsEvent :=
  let fp := joinPath dir (downloadFileName props.resolution)
  if env.fetchOk then
    match env.bodyResult with
    | none => []
    | some bytes =>
      .create fp ::
        (if env.createOk then
          .write fp bytes ::
            (match env.writeResult with
            | none => []
            | some len =>
              if len > bytes.length then [] else [.sync fp])
        else [])
  else []

/-- Whether one `download` task reaches its success print (src/main.rs
line 144): every stage succeeded and the length check `len > bytes.len()`
did not fire. -/
def downloadSuccess (env : TaskEnv) : Bool :=
  env.fetchOk &&
    (match env.bodyResult with
    | none => false
    | some bytes =>
      env.createOk &&
        (match env.writeResult with
        | none => false
        | some len => !(len > bytes.length) && env.syncOk))

/-- The outcome the environment gives to the fallible calls inside
`create_metadata` (no network call is made). -/
structure MetaEnv where
  createOk : Bool
  writeResult : Option Nat
  syncOk : Bool
deriving DecidableEq, Repr

/-- The attribution document text (src/main.rs line 176): a level-1 heading
holding the title, then a level-2 heading holding the copyright, each line
terminated by a newline. -/
def metadataText (props : ImageProperties) : List Char :=
  str "# " ++ props.title ++ str "\n## " ++ props.copyright ++ str "\n"

/-- The fixed attribution file name (src/main.rs line 177). -/
def metadataFileName : List Char := str "README.md"

/-- The filesystem operations one `create_metadata` task attempts
(src/main.rs lines 175-211). -/
def createMetadataEvents (env : MetaEnv) (props : ImageProperties)
    (dir : List Char) : List FsEvent :=
  let content := metadataText props
  let fp := joinPath dir metadataFileName
  if env.createOk then
    .create fp ::
      .write fp (content.map Char.toNat) ::
        (match env.writeResult with
        | none => []
        | some len =>
          if len > content.length then [] else [.sync fp])
  else []

/-- Whether `create_metadata` reaches its success print (src/main.rs
line 197). -/
def createMetadataSuccess (env : MetaEnv) (props : ImageProperties) : Bool :=
  env.createOk &&
    (match env.writeResult with
    | none => false
    | some len => !(len > (metadataText props).length) && env.syncOk)

/-! ## The orchestrator (src/main.rs `main`, lines 71-106) -/

/-- The `ImageProperties` handed to the resolution task for `r`
(src/main.rs lines 85-90). -/
def mkProps (meta : ImageMetadata) (r : Resolution) : ImageProperties :=
  { resolution := r, url := meta.url, title := meta.title
    copyright := meta.copyright }

/-- The `ImageProperties` handed to the attribution task, carrying the
sentinel resolution `(0, 0)` (src/main.rs lines 94-99). -/
def readmeProps (meta : ImageMetadata) : ImageProperties :=
  { resolution := ⟨0, 0⟩, url := meta.url, title := meta.title
    copyright := meta.copyright }

/-- The filesystem events of the `download` task spawned for the `i`-th
requested resolution. -/
def taskEvents (fetched : Option Json) (resolutions : List Resolution)
    (dir : List Char) (envs : Nat → TaskEnv) (i : Nat) : List FsEvent :=
  match fetchMeta fetched, resolutions.get? i with
  | .ok meta, some r => downloadEvents (envs i) (mkProps meta r) dir
  | _, _ => []

/-- All filesystem events of one run, in task order: nothing if the
metadata fetch failed (`?` propagates before any spawn), otherwise the
events of every resolution task followed by the attribution task's when the
readme flag is set. -/
def runEvents (fetched : Option Json) (resolutions : List Resolution)
    (readme : Bool) (dir : List Char) (envs : Nat → TaskEnv)
    (renv : MetaEnv) : List FsEvent :=
  match fetchMeta fetched with
  | .error _ => []
  | .ok meta =>
    ((List.range resolutions.length).map
      (taskEvents fetched resolutions dir envs)).flatten
      ++ (if readme then createMetadataEvents renv (readmeProps meta) dir
          else [])

/-- Whether `main` returns `Ok(())`: every task returns unit, `try_join!`
succeeds on each handle, so the result is `Ok` exactly when the metadata
fetch before fan-out succeeded (src/main.rs lines 71-74, 103-106). -/
def runExitOk (fetched : Option Json) : Bool :=
  match fetchMeta fetched with
  | .ok _ => true
  | .error _ => false

/-! ## Helper lemmas -/

lemma head?_dropWhile_beq_ne (c : Char) (l : List Char) :
    (l.dropWhile (fun a => a == c)).head? ≠ some c := by
  induction l with
  | nil => simp
  | cons a rest ih =>
    by_cases h : a = c
    · simpa [List.dropWhile_cons, h] using ih
    · simp [List.dropWhile_cons, h]

lemma getLast?_append_right {s t : List Char} (h : s ≠ []) :
    (t ++ s).getLast? = s.getLast? := by
  rw [List.getLast?_append]
  cases hs : s.getLast? with
  | none => exact absurd (List.getLast?_eq_none_iff.mp hs) h
  | some a => rfl

lemma getLast?_dropWhile_beq_ne (c : Char) (l : List Char) :
    (l.dropWhile (fun a => a == c)).getLast? ≠ some c ∨
      l.getLast? = (l.dropWhile (fun a => a == c)).getLast? := by
  cases hd : l.dropWhile (fun a => a == c) with
  | nil => left; simp [hd]
  | cons a rest =>
    right
    obtain ⟨t, ht⟩ := List.dropWhile_suffix (l := l) (fun a => a == c)
    rw [← ht, hd, getLast?_append_right (by simp)]

lemma trimMatches_head?_ne (c : Char) (l : List Char) :
    (trimMatches c l).head? ≠ some c := by
  unfold trimMatches
  rw [List.head?_reverse]
  rcases getLast?_dropWhile_beq_ne c (l.dropWhile (fun a => a == c)).reverse
    with h | h
  · exact h
  · rw [← h, List.getLast?_reverse]
    exact head?_dropWhile_beq_ne c l

lemma trimMatches_getLast?_ne (c : Char) (l : List Char) :
    (trimMatches c l).getLast? ≠ some c := by
  unfold trimMatches
  rw [List.getLast?_reverse]
  exact head?_dropWhile_beq_ne c _

lemma replaceAll_no_occurrence {pat s : List Char} (repl : List Char)
    (h : ¬ pat <:+: s) :
    replaceAll pat repl s = s := by
  induction s with
  | nil => simp [replaceAll]
  | cons a rest ih =>
    rw [replaceAll]
    rw [dif_neg]
    · rw [ih (fun hi => h (List.infix_cons hi))]
    · rintro ⟨-, hpre⟩
      exact h (List.IsPrefix.isInfix (List.isPrefixOf_iff_prefix.mp hpre))

lemma digitChar_isDigit (d : Nat) : (digitChar d).isDigit = true := by
  match d with
  | 0 | 1 | 2 | 3 | 4 | 5 | 6 | 7 | 8 => rfl
  | n + 9 => rfl

lemma digitChar_toNat {d : Nat} (h : d < 10) :
    (digitChar d).toNat = 48 + d := by
  unfold digitChar
  interval_cases d <;> rfl

lemma natRevDigits_all_digit (n : Nat) :
    ∀ c ∈ natRevDigits n, c.isDigit = true := by
  induction n using Nat.strong_induction_on with
  | _ n ih =>
    match n with
    | 0 => simp [natRevDigits]
    | m + 1 =>
      rw [natRevDigits]
      intro c hc
      rcases List.mem_cons.mp hc with h | h
      · exact h ▸ digitChar_isDigit _
      · exact ih ((m + 1) / 10) (Nat.div_lt_self (Nat.succ_pos m) (by omega)) c h

lemma natStr_all_digit (n : Nat) : ∀ c ∈ natStr n, c.isDigit = true := by
  unfold natStr
  split
  · simp
  · intro c hc
    exact natRevDigits_all_digit n c (List.mem_reverse.mp hc)

lemma natStr_ne_nil (n : Nat) : natStr n ≠ [] := by
  unfold natStr
  split
  · simp
  · rename_i h
    match hm : n with
    | 0 => exact absurd rfl h
    | m + 1 => rw [natRevDigits]; simp

lemma isDigit_ne_x {c : Char} (h : c.isDigit = true) : c ≠ 'x' := by
  intro he
  rw [he] at h
  exact absurd h (by decide)

lemma isDigit_ne_plus {c : Char} (h : c.isDigit = true) : c ≠ '+' := by
  intro he
  rw [he] at h
  exact absurd h (by decide)

lemma splitOnChar_ne_nil (c : Char) (l : List Char) : splitOnChar c l ≠ [] := by
  match l with
  | [] => simp [splitOnChar]
  | a :: rest =>
    rw [splitOnChar]
    split
    · simp
    · cases h : splitOnChar c rest <;> simp

lemma splitOnChar_of_not_mem {c : Char} {l : List Char} (h : c ∉ l) :
    splitOnChar c l = [l] := by
  induction l with
  | nil => rfl
  | cons a rest ih =>
    rw [splitOnChar, if_neg (fun he => h (List.mem_cons.mpr (Or.inl he.symm))),
      ih (fun hm => h (List.mem_cons_of_mem a hm))]

lemma splitOnChar_append {c : Char} {a : List Char} (b : List Char)
    (ha : c ∉ a) : splitOnChar c (a ++ c :: b) = a :: splitOnChar c b := by
  induction a with
  | nil => simp [splitOnChar]
  | cons d a' ih =>
    rw [List.cons_append, splitOnChar,
      if_neg (fun he => ha (List.mem_cons.mpr (Or.inl he.symm))),
      ih (fun hm => ha (List.mem_cons_of_mem d hm))]

lemma foldl_parseDigitStep_all_digit {l : List Char}
    (hl : ∀ c ∈ l, c.isDigit = true) (a : Nat) :
    l.foldl parseDigitStep (some a) =
      some (l.foldl (fun m c => m * 10 + (c.toNat - 48)) a) := by
  induction l generalizing a with
  | nil => rfl
  | cons c rest ih =>
    have hc : c.isDigit = true := hl c (List.mem_cons_self c rest)
    rw [List.foldl_cons, List.foldl_cons]
    have hstep : parseDigitStep (some a) c = some (a * 10 + (c.toNat - 48)) := by
      simp [parseDigitStep, hc]
    rw [hstep, ih (fun d hd => hl d (List.mem_cons_of_mem c hd))]

lemma foldl_decimal_natRevDigits (n : Nat) :
    ∀ a : Nat, ((natRevDigits n).reverse).foldl
      (fun m c => m * 10 + (c.toNat - 48)) a =
        a * 10 ^ (natRevDigits n).length + n := by
  induction n using Nat.strong_induction_on with
  | _ n ih =>
    intro a
    match n with
    | 0 => simp [natRevDigits]
    | m + 1 =>
      rw [natRevDigits, List.reverse_cons, List.foldl_append,
        ih ((m + 1) / 10) (Nat.div_lt_self (Nat.succ_pos m) (by omega)) a]
      have hd : (digitChar ((m + 1) % 10)).toNat = 48 + (m + 1) % 10 :=
        digitChar_toNat (Nat.mod_lt _ (by omega))
      simp only [List.foldl_cons, List.foldl_nil, List.length_cons, hd]
      rw [pow_succ, ← mul_assoc]
      generalize a * 10 ^ (natRevDigits ((m + 1) / 10)).length = q
      omega

lemma parseU16_natStr {n : Nat} (h : n < 65536) :
    parseU16 (natStr n) = some n := by
  have hdig := natStr_all_digit n
  have hbody : (if (natStr n).head? = some '+' then (natStr n).tail
      else natStr n) = natStr n := by
    rw [if_neg]
    intro hh
    have : '+' ∈ natStr n := List.mem_of_mem_head? hh
    exact isDigit_ne_plus (hdig '+' this) rfl
  unfold parseU16
  rw [hbody, if_neg (natStr_ne_nil n)]
  have hval : (natStr n).foldl (fun m c => m * 10 + (c.toNat - 48)) 0 = n := by
    unfold natStr
    split
    · rename_i h0
      simp [h0]
    · simpa using foldl_decimal_natRevDigits n 0
  rw [foldl_parseDigitStep_all_digit hdig 0, hval]
  simp [h]

lemma parseResolution_toText {r : Resolution} (hx : r.x < 65536)
    (hy : r.y < 65536) : parseResolution r.toText = some r := by
  have hxne : 'x' ∉ natStr r.x :=
    fun hm => isDigit_ne_x (natStr_all_digit r.x 'x' hm) rfl
  have hyne : 'x' ∉ natStr r.y :=
    fun hm => isDigit_ne_x (natStr_all_digit r.y 'x' hm) rfl
  have htext : r.toText = natStr r.x ++ 'x' :: natStr r.y := by
    unfold Resolution.toText
    simp
  unfold parseResolution
  rw [htext, splitOnChar_append _ hxne, splitOnChar_of_not_mem hyne]
  simp [parseU16_natStr hx, parseU16_natStr hy]

/-! ## Claims -/

/-- C1: a failure inside one resolution's download task does not prevent any
other resolution's task from fetching and writing its file, and does not
change the overall run's exit status: each task's filesystem events and
success flag depend only on its own environment, and `main` returns `Ok`
whenever the metadata fetch before fan-out succeeded. -/
theorem claim_c1_task_failure_isolated (j : Json)
    (resolutions : List Resolution) (dir : List Char)
    (envs envs' : Nat → TaskEnv) (j0 i : Nat) (hi : i ≠ j0)
    (hagree : ∀ k, k ≠ j0 → envs k = envs' k) :
    taskEvents (some j) resolutions dir envs i =
      taskEvents (some j) resolutions dir envs' i ∧
    downloadSuccess (envs i) = downloadSuccess (envs' i) ∧
    runExitOk (some j) = true := by
  have h := hagree i hi
  refine ⟨?_, by rw [h], rfl⟩
  simp only [taskEvents, h]

/-- Witness for C1: with two requested resolutions, turning the first
task's transport fetch into a failure leaves the second task's events and
success flag unchanged, and the run still exits successfully. -/
theorem claim_c1_task_failure_isolated_witness :
    taskEvents (some (Json.obj [])) [⟨800, 600⟩, ⟨1920, 1080⟩] (str "out")
        (fun _ => ⟨true, some [1, 2], true, some 2, true⟩) 1 =
      taskEvents (some (Json.obj [])) [⟨800, 600⟩, ⟨1920, 1080⟩] (str "out")
        (fun k => if k = 0 then ⟨false, none, true, none, true⟩
          else ⟨true, some [1, 2], true, some 2, true⟩) 1 ∧
    downloadSuccess ⟨true, some [1, 2], true, some 2, true⟩ =
      downloadSuccess ((fun k => if k = 0 then
          (⟨false, none, true, none, true⟩ : TaskEnv)
        else ⟨true, some [1, 2], true, some 2, true⟩) 1) ∧
    runExitOk (some (Json.obj [])) = true :=
  claim_c1_task_failure_isolated (Json.obj []) [⟨800, 600⟩, ⟨1920, 1080⟩]
    (str "out") _ _ 0 1 (by decide) (fun k hk => by simp [hk])

/-- C2: if the metadata fetch fails, the run exits non-successfully and no
filesystem operation happens anywhere: every write in the program is behind
the successful return of the metadata fetch. -/
theorem claim_c2_fetch_failure_aborts_before_writes :
    ∀ (resolutions : List Resolution) (readme : Bool) (dir : List Char)
      (envs : Nat → TaskEnv) (renv : MetaEnv),
      runEvents none resolutions readme dir envs renv = [] ∧
      runExitOk none = false :=
  fun _ _ _ _ _ => ⟨rfl, rfl⟩

/-- C3: the short-write check in the code is inverted.  The source compares
`len > bytes.len()` instead of `len < bytes.len()`, so a short write (here:
payload of two bytes, reported written length one; payload of nine
characters, reported written length zero) passes the check and both tasks
reach their success print. -/
theorem claim_c3_short_write_declared_success :
    downloadSuccess
        { fetchOk := true, bodyResult := some [7, 7], createOk := true
          writeResult := some 1, syncOk := true } = true ∧
    createMetadataSuccess { createOk := true, writeResult := some 0, syncOk := true }
        { resolution := ⟨0, 0⟩, url := [], title := str "Title"
          copyright := str "C" } = true := by
  exact ⟨rfl, rfl⟩

/-- C4: the derived download URL is the template with every occurrence of
the marker `1920x1080` replaced by the resolution's canonical text,
prefixed by the fixed origin; with no occurrence of the marker the derived
URL is exactly the origin followed by the unmodified template. -/
theorem claim_c4_url_derivation (template : List Char) (r : Resolution)
    (hno : ¬ marker <:+: template) :
    deriveUrl template r = urlOrigin ++ replaceAll marker r.toText template ∧
    deriveUrl template r = urlOrigin ++ template := by
  refine ⟨rfl, ?_⟩
  unfold deriveUrl
  rw [replaceAll_no_occurrence _ hno]

/-- Witness for C4: a template without the marker is returned unchanged,
only prefixed by the origin. -/
theorem claim_c4_url_derivation_witness :
    deriveUrl (str "/az.jpg") ⟨800, 600⟩ =
      urlOrigin ++ replaceAll marker (Resolution.mk 800 600).toText (str "/az.jpg") ∧
    deriveUrl (str "/az.jpg") ⟨800, 600⟩ = urlOrigin ++ str "/az.jpg" :=
  claim_c4_url_derivation (str "/az.jpg") ⟨800, 600⟩ (by decide)

/-- C5: the attribution document is exactly
`"# " ++ title ++ "\n## " ++ copyright ++ "\n"`; in particular for title
`Example` and copyright `© 2024` it is exactly `"# Example\n## © 2024\n"`. -/
theorem claim_c5_attribution_document_content :
    (∀ p : ImageProperties,
      metadataText p =
        str "# " ++ p.title ++ str "\n## " ++ p.copyright ++ str "\n") ∧
    metadataText
        { resolution := ⟨0, 0⟩, url := [], title := str "Example"
          copyright := str "© 2024" } =
      str "# Example\n## © 2024\n" := by
  exact ⟨fun p => rfl, by decide⟩

/-- C6, counterexample: with a decoded JSON body that has none of the
expected fields (the empty object), the metadata fetch does NOT fail with a
decode error: it succeeds, the fields hold the text `null`, and the run
proceeds with a successful exit. -/
theorem claim_c6_counterexample :
    fetchMeta (some (Json.obj [])) =
      .ok { url := str "null", title := str "null", copyright := str "null" } ∧
    runExitOk (some (Json.obj [])) = true := by
  exact ⟨rfl, rfl⟩

/-- C6, amended: the metadata fetch fails exactly when the request cannot
complete or the body is not decodable as JSON; absent expected fields do
not cause a failure — each missing field is extracted as the literal text
`null` — and only a fetch failure aborts the run with no task launched. -/
theorem claim_c6_amended_decode_only_failure :
    fetchMeta none = .error () ∧
    (∀ j : Json, (fetchMeta (some j)).isOk = true) ∧
    (∀ (j : Json) (field : List Char),
      ((j.getKey (str "images")).getIdx 0).getKey field = .null →
        extractField j field = str "null") ∧
    (∀ (resolutions : List Resolution) (readme : Bool) (dir : List Char)
      (envs : Nat → TaskEnv) (renv : MetaEnv),
      runEvents none resolutions readme dir envs renv = []) := by
  refine ⟨rfl, fun j => rfl, fun j field h => ?_, fun _ _ _ _ _ => rfl⟩
  unfold extractField
  rw [h]
  rfl

/-- Witness for C6 (amended): on the empty object, the `url` field is
extracted as the text `null`. -/
theorem claim_c6_amended_witness :
    extractField (Json.obj []) (str "url") = str "null" :=
  claim_c6_amended_decode_only_failure.2.2.1 (Json.obj []) (str "url") rfl

/-- C7: rendering a `Resolution` to its canonical text and parsing it back
with the program's argument rule yields the original pair; consequently
distinct resolutions have distinct canonical texts and distinct output file
names. -/
theorem claim_c7_resolution_roundtrip (r r' : Resolution)
    (hx : r.x < 65536) (hy : r.y < 65536)
    (hx' : r'.x < 65536) (hy' : r'.y < 65536) :
    parseResolution r.toText = some r ∧
    (r.toText = r'.toText → r = r') ∧
    (downloadFileName r = downloadFileName r' → r = r') := by
  have hinj : r.toText = r'.toText → r = r' := by
    intro he
    have h1 := parseResolution_toText hx hy
    have h2 := parseResolution_toText hx' hy'
    rw [he, h2] at h1
    exact (Option.some.inj h1).symm
  refine ⟨parseResolution_toText hx hy, hinj, fun hf => ?_⟩
  exact hinj (List.append_cancel_right hf)

/-- Witness for C7: the round trip at `1920x1080`, and distinctness against
`800x600`. -/
theorem claim_c7_resolution_roundtrip_witness :
    parseResolution (Resolution.mk 1920 1080).toText = some ⟨1920, 1080⟩ ∧
    ((Resolution.mk 1920 1080).toText = (Resolution.mk 800 600).toText →
      Resolution.mk 1920 1080 = Resolution.mk 800 600) ∧
    (downloadFileName ⟨1920, 1080⟩ = downloadFileName ⟨800, 600⟩ →
      Resolution.mk 1920 1080 = Resolution.mk 800 600) :=
  claim_c7_resolution_roundtrip ⟨1920, 1080⟩ ⟨800, 600⟩
    (by decide) (by decide) (by decide) (by decide)

/-- C8: the stored url, title and copyright values never begin or end with
a literal double-quote character: the delimiting quotes of the rendered
JSON value are stripped before the value is stored. -/
theorem claim_c8_no_delimiting_quotes (j : Json) (m : ImageMetadata)
    (h : fetchMeta (some j) = .ok m) :
    (m.url.head? ≠ some '"' ∧ m.url.getLast? ≠ some '"') ∧
    (m.title.head? ≠ some '"' ∧ m.title.getLast? ≠ some '"') ∧
    (m.copyright.head? ≠ some '"' ∧ m.copyright.getLast? ≠ some '"') := by
  have hm := Except.ok.inj h
  subst hm
  simp only [extractField]
  exact ⟨⟨trimMatches_head?_ne _ _, trimMatches_getLast?_ne _ _⟩,
    ⟨trimMatches_head?_ne _ _, trimMatches_getLast?_ne _ _⟩,
    ⟨trimMatches_head?_ne _ _, trimMatches_getLast?_ne _ _⟩⟩

/-- Witness for C8: the metadata extracted from a concrete response whose
title is the quoted text `"T"` has no delimiting quotes on any field. -/
theorem claim_c8_no_delimiting_quotes_witness :
    ((str "null").head? ≠ some '"' ∧ (str "null").getLast? ≠ some '"') ∧
    ((str "T").head? ≠ some '"' ∧ (str "T").getLast? ≠ some '"') ∧
    ((str "null").head? ≠ some '"' ∧ (str "null").getLast? ≠ some '"') :=
  claim_c8_no_delimiting_quotes
    (Json.obj [(str "images", Json.arr [Json.obj
      [(str "title", Json.string (str "T"))]])])
    { url := str "null", title := str "T", copyright := str "null" } rfl

/-- C9: if the image fetch or the body read fails, the download task
performs no filesystem operation at all: the output file is created only
after the complete response body has been received. -/
theorem claim_c9_fetch_failure_no_fs_ops (env : TaskEnv)
    (props : ImageProperties) (dir : List Char)
    (h : env.fetchOk = false ∨ env.bodyResult = none) :
    downloadEvents env props dir = [] := by
  unfold downloadEvents
  rcases h with h | h
  · simp [h]
  · cases hf : env.fetchOk <;> simp [h, hf]

/-- Witness for C9: a task whose transport fetch fails attempts no
filesystem operation. -/
theorem claim_c9_fetch_failure_no_fs_ops_witness :
    downloadEvents ⟨false, some [1], true, some 1, true⟩
      ⟨⟨800, 600⟩, str "/a.jpg", str "T", str "C"⟩ (str "out") = [] :=
  claim_c9_fetch_failure_no_fs_ops _ _ _ (Or.inl rfl)

/-- C10: the bytes `create_metadata` writes and its target path depend only
on the title and copyright of its `ImageProperties`: two values agreeing on
those but differing in resolution or url produce identical content, events
and outcome — the sentinel resolution `(0, 0)` is never read. -/
theorem claim_c10_metadata_ignores_resolution_and_url
    (p₁ p₂ : ImageProperties) (dir : List Char) (env : MetaEnv)
    (ht : p₁.title = p₂.title) (hc : p₁.copyright = p₂.copyright) :
    metadataText p₁ = metadataText p₂ ∧
    createMetadataEvents env p₁ dir = createMetadataEvents env p₂ dir ∧
    createMetadataSuccess env p₁ = createMetadataSuccess env p₂ := by
  have hm : metadataText p₁ = metadataText p₂ := by
    unfold metadataText
    rw [ht, hc]
  refine ⟨hm, ?_, ?_⟩
  · unfold createMetadataEvents
    rw [hm]
  · unfold createMetadataSuccess
    rw [hm]

/-- Witness for C10: the sentinel resolution `(0, 0)` with one url and a
real resolution with another url give identical attribution output. -/
theorem claim_c10_metadata_ignores_resolution_and_url_witness :
    metadataText ⟨⟨0, 0⟩, str "u1", str "T", str "C"⟩ =
      metadataText ⟨⟨5, 7⟩, str "u2", str "T", str "C"⟩ ∧
    createMetadataEvents ⟨true, some 9, true⟩
        ⟨⟨0, 0⟩, str "u1", str "T", str "C"⟩ (str "out") =
      createMetadataEvents ⟨true, some 9, true⟩
        ⟨⟨5, 7⟩, str "u2", str "T", str "C"⟩ (str "out") ∧
    createMetadataSuccess ⟨true, some 9, true⟩
        ⟨⟨0, 0⟩, str "u1", str "T", str "C"⟩ =
      createMetadataSuccess ⟨true, some 9, true⟩
        ⟨⟨5, 7⟩, str "u2", str "T", str "C"⟩ :=
  claim_c10_metadata_ignores_resolution_and_url _ _ (str "out") _ rfl rfl

end Bingimage
